import Mathlib

/-
  Shallow embedding of newt-python (src/newt/newt.py): a thin client for the
  NERSC NEWT REST API.  Each client method is modelled as a pure function of
  an HTTP oracle (mapping the request the method builds to the response the
  server would return); every method also returns the list of requests it
  issued, and download additionally threads an explicit local filesystem.
  Python outcomes are modelled by PyResult: a normal return, a *returned*
  error object (the code does `return ValueError(...)` on invalid machines),
  or a raised exception identified by its class name.
-/

set_option autoImplicit false
set_option linter.unusedVariables false

/-- Decoded JSON values as produced by `resp.json()`. -/
inductive JVal where
  | null : JVal
  | bool : Bool → JVal
  | num : Int → JVal
  | str : String → JVal
  | arr : List JVal → JVal
  | obj : List (String × JVal) → JVal

/-- Python equality of a decoded value against a string: true exactly when
the value is that string (comparing a non-string against a string is simply
False in Python, no exception). -/
def JVal.eqStr : JVal → String → Bool
  | .str s, t => s == t
  | _, _ => false

/-- Association-list lookup, first binding wins (Python dicts hold at most
one binding per key, so the lists we build have distinct keys). -/
def alookup {β : Type} (k : String) : List (String × β) → Option β
  | [] => none
  | (k', v) :: rest => if k' = k then some v else alookup k rest

/-- Outcome of calling one Python method: a normal return, a returned
error object (`return ValueError(...)` — returned, not raised), or a raised
exception named by its class. -/
inductive PyResult (α : Type) where
  | ret : α → PyResult α
  | retErr : String → PyResult α
  | raised : String → PyResult α
deriving DecidableEq, Repr

/-- Sequencing of Python evaluation: raised exceptions propagate. -/
def PyResult.bind {α β : Type} : PyResult α → (α → PyResult β) → PyResult β
  | .ret a, f => f a
  | .retErr e, _ => .retErr e
  | .raised e, _ => .raised e

inductive Method where
  | get : Method
  | post : Method
  | delete : Method
deriving DecidableEq, Repr

/-- Python file object: its `name` and the content `read()` would yield. -/
structure FileObj where
  name : String
  content : String
deriving DecidableEq, Repr

/-- One HTTP request as assembled by the client: method, full URL, form
data, query parameters, multipart file parts (form field, filename,
file object), and the streaming flag. -/
structure Request where
  method : Method
  url : String
  data : List (String × String)
  params : List (String × String)
  files : List (String × String × FileObj)
  stream : Bool
deriving DecidableEq, Repr

/-- Parts of a `requests` response the client inspects: HTTP status code,
decoded JSON body (`none` when the body does not decode), and the content
chunks that `iter_content(chunk_size=1024)` yields in order. -/
structure HTTPResponse where
  status : Nat
  json : Option JVal
  chunks : List String

/-- Models `resp.raise_for_status()` from the requests library: it raises
`HTTPError` exactly for 4xx client-error and 5xx server-error codes. -/
def httpError (r : HTTPResponse) : Bool :=
  decide (400 ≤ r.status) && decide (r.status < 600)

/-- Models `resp.json()`: the decoded body, or a raised decode error. -/
def respJson (r : HTTPResponse) : PyResult JVal :=
  match r.json with
  | some j => .ret j
  | none => .raised "JSONDecodeError"

/-- Python subscription `d[k]` on a decoded value: `KeyError` on a missing
dict key, `TypeError` when the value is not a dict. -/
def objGet (j : JVal) (k : String) : PyResult JVal :=
  match j with
  | .obj fields =>
    (match alookup k fields with
     | some v => .ret v
     | none => .raised "KeyError")
  | _ => .raised "TypeError"

/-- Python truthiness of a decoded JSON value. -/
def pyTruthy : JVal → Bool
  | .null => false
  | .bool b => b
  | .num n => decide (n ≠ 0)
  | .str s => decide (s ≠ "")
  | .arr l => !l.isEmpty
  | .obj l => !l.isEmpty

def NEWT_BASE_URL : String := "https://newt.nersc.gov/newt"

def NEWT_MACHINES : List String := ["hopper", "carver", "edison"]

def NEWT_SYSTEMS : List String :=
  ["hopper", "carver", "edison", "pdsf", "genepool", "archive"]

/-- Split a character list at every occurrence of `sep`, like Python
`str.split(sep)` for a one-character separator (empty input gives one
empty piece, as in Python). -/
def splitOnChar (sep : Char) : List Char → List (List Char)
  | [] => [[]]
  | c :: rest =>
    match splitOnChar sep rest with
    | [] => [[]]
    | piece :: more =>
      if c = sep then [] :: piece :: more
      else (c :: piece) :: more

/-- Python `s.split(sep)[0]`: the portion of `s` before the first
occurrence of `sep` (all of `s` when `sep` does not occur). -/
def pySplitHead (sep : Char) (s : String) : String :=
  String.mk ((splitOnChar sep s.data).headD [])

/-- Python `s.split(sep)[-1]`: the portion of `s` after the last
occurrence of `sep` (all of `s` when `sep` does not occur). -/
def pySplitLast (sep : Char) (s : String) : String :=
  String.mk ((splitOnChar sep s.data).getLastD [])

/-- Models POSIX `os.path.split`: the tail is everything after the last
slash; the head is everything before it, with trailing slashes stripped
unless the head consists only of slashes. -/
def osPathSplit (p : String) : String × String :=
  let cs := p.data
  let tl := (cs.reverse.takeWhile (fun c => ¬ c = '/')).reverse
  let hd := cs.take (cs.length - tl.length)
  let hd' :=
    if hd.any (fun c => ¬ c = '/') then (hd.reverse.dropWhile (fun c => c = '/')).reverse
    else hd
  (String.mk hd', String.mk tl)

/-- Replace the binding of `k` in place when present, append it otherwise —
the effect of one `d[k] = v` / `setattr` on a CPython dict. -/
def dictInsert {β : Type} : List (String × β) → String → β → List (String × β)
  | [], k, v => [(k, v)]
  | (k', v') :: rest, k, v =>
    if k' = k then (k', v) :: rest
    else (k', v') :: dictInsert rest k v

/-- Python `d.update(kvs)`: insert every binding of `kvs` in order. -/
def dictUpdate {β : Type} (d : List (String × β)) (kvs : List (String × β)) :
    List (String × β) :=
  kvs.foldl (fun acc kv => dictInsert acc kv.1 kv.2) d

/-- Local filesystem: association of paths to file contents. -/
abbrev FS := List (String × String)

/-- Opening with mode 'wb' truncates: after the write the file at `path`
holds exactly `content`; any previous file there is replaced. -/
def fsWrite (fs : FS) (path content : String) : FS :=
  (path, content) :: fs.filter (fun pc => ¬ pc.1 = path)

/-- Session client: its only persistent state is the underlying
authenticated `requests.Session`, modelled by an opaque identifier. -/
structure NEWT where
  _session : Nat
deriving DecidableEq, Repr

/-- Job handle: `_data` is the kwargs mapping captured by `__init__`;
`setAttrs` are the ordinary instance attributes added afterwards by
`setattr` during `update` (Python keeps them in the instance `__dict__`,
where they are found before `__getattr__` is ever consulted). -/
structure Job where
  _session : Nat
  _data : List (String × JVal)
  setAttrs : List (String × JVal)

/-- Names that Python resolves before `__getattr__` is consulted:
`_session` and `_data` are set in `__init__`, while `update` and `delete`
are class methods.  `Job.readAttr` models attribute access for field names
outside this list. -/
def Job.reservedNames : List String := ["_session", "_data", "update", "delete"]

/-- Attribute read `job.a` for a non-reserved name `a`: the instance
`__dict__` entries added by `setattr` are found first; on a miss Python
calls `Job.__getattr__`, which evaluates `self._data[attr]` and therefore
raises `KeyError` when the key is absent from the stored mapping. -/
def Job.readAttr (j : Job) (a : String) : PyResult JVal :=
  match alookup a j.setAttrs with
  | some v => .ret v
  | none =>
    (match alookup a j._data with
     | some v => .ret v
     | none => .raised "KeyError")

/-- Effect of `for key in job_info: setattr(self, key, job_info[key])` on
the instance `__dict__` (accurate when no key of `job_info` is one of the
reserved names, which would instead clobber `_data`/`_session` or shadow a
method). -/
def Job.setattrAll (j : Job) (fields : List (String × JVal)) : Job :=
  { j with setAttrs := dictUpdate j.setAttrs fields }

/-- Models `NEWT.login`: POST the credentials to `/login`, call
`raise_for_status`, then evaluate
`if resp.json()['auth'] and resp.json()['username'] == username: return
resp.json()['auth']` and otherwise `raise ValueError(...)`.  The
constructor `NEWT.__init__` calls this directly, so a constructor failure
is exactly a login failure.  Returns the outcome paired with the list of
requests issued. -/
def NEWT.login (c : NEWT) (http : Request → HTTPResponse)
    (username password : String) : PyResult JVal × List Request :=
  let req : Request :=
    { method := .post, url := NEWT_BASE_URL ++ "/login",
      data := [("username", username), ("password", password)],
      params := [], files := [], stream := false }
  let resp := http req
  let r : PyResult JVal :=
    if httpError resp then .raised "HTTPError"
    else
      PyResult.bind (respJson resp) (fun j =>
        PyResult.bind (objGet j "auth") (fun authv =>
          if pyTruthy authv then
            PyResult.bind (objGet j "username") (fun unamev =>
              if unamev.eqStr username then .ret authv
              else .raised "ValueError")
          else .raised "ValueError"))
  (r, [req])

/-- Models `NEWT.list`: on a machine outside `NEWT_MACHINES` the method
returns (does not raise) a `ValueError` and issues no request; otherwise it
GETs `NEWT_BASE_URL + '/file/' + machine + remote_dir`, calls
`raise_for_status`, and returns the decoded JSON body. -/
def NEWT.list (c : NEWT) (http : Request → HTTPResponse)
    (machine remote_dir : String) : PyResult JVal × List Request :=
  if machine ∈ NEWT_MACHINES then
    let req : Request :=
      { method := .get, url := NEWT_BASE_URL ++ "/file/" ++ machine ++ remote_dir,
        data := [], params := [], files := [], stream := false }
    let resp := http req
    let r : PyResult JVal :=
      if httpError resp then .raised "HTTPError" else respJson resp
    (r, [req])
  else (.retErr "machine value must be specified", [])

/-- Models `NEWT.download`: validate the machine (returned `ValueError`,
no request, filesystem untouched on failure); default the local path to
`remote_path.split('/')[-1]` when `local_path` is falsy (absent or empty);
GET the file URL with `view=read` streaming; `raise_for_status`; then write
the non-empty chunks, in order, into the local file opened with mode 'wb'
(overwriting any existing file) and return the local path. -/
def NEWT.download (c : NEWT) (http : Request → HTTPResponse) (fs : FS)
    (machine remote_path : String) (local_path : Option String) :
    PyResult String × List Request × FS :=
  if machine ∈ NEWT_MACHINES then
    let lp :=
      match local_path with
      | none => pySplitLast '/' remote_path
      | some p => if p = "" then pySplitLast '/' remote_path else p
    let req : Request :=
      { method := .get, url := NEWT_BASE_URL ++ "/file/" ++ machine ++ remote_path,
        data := [], params := [("view", "read")], files := [], stream := true }
    let resp := http req
    let content := String.join (resp.chunks.filter (fun ch => ¬ ch = ""))
    let pr : PyResult String × FS :=
      if httpError resp then (.raised "HTTPError", fs)
      else (.ret lp, fsWrite fs lp content)
    (pr.1, [req], pr.2)
  else (.retErr "machine value must be specified", [], fs)

/-- Models `NEWT.upload`: validate the machine; split `remote_path` with
`os.path.split`; the multipart filename is the split tail when non-empty
and otherwise the source file object's own name; POST to
`NEWT_BASE_URL + '/file/' + machine + remote_dir`; `raise_for_status`;
return `True`. -/
def NEWT.upload (c : NEWT) (http : Request → HTTPResponse)
    (machine remote_path : String) (file_obj : FileObj) :
    PyResult Bool × List Request :=
  if machine ∈ NEWT_MACHINES then
    let rd := osPathSplit remote_path
    let fname := if rd.2 = "" then file_obj.name else rd.2
    let req : Request :=
      { method := .post, url := NEWT_BASE_URL ++ "/file/" ++ machine ++ rd.1,
        data := [], params := [], files := [("file", fname, file_obj)],
        stream := false }
    let resp := http req
    let r : PyResult Bool :=
      if httpError resp then .raised "HTTPError" else .ret true
    (r, [req])
  else (.retErr "machine value must be specified", [])

/-- Form encoding of a Python bool by the requests library. -/
def pyBoolStr (b : Bool) : String := if b then "True" else "False"

/-- Models `NEWT.run_command`: validate the machine; POST the executable
and the login-environment flag to `/command/<machine>`; `raise_for_status`;
return the decoded JSON body. -/
def NEWT.run_command (c : NEWT) (http : Request → HTTPResponse)
    (machine command : String) (loginenv : Bool) : PyResult JVal × List Request :=
  if machine ∈ NEWT_MACHINES then
    let req : Request :=
      { method := .post, url := NEWT_BASE_URL ++ "/command/" ++ machine,
        data := [("executable", command), ("loginenv", pyBoolStr loginenv)],
        params := [], files := [], stream := false }
    let resp := http req
    let r : PyResult JVal :=
      if httpError resp then .raised "HTTPError" else respJson resp
    (r, [req])
  else (.retErr "machine value must be specified", [])

/-- Builds `[Job(self._session, **job_info) for job_info in entries]`:
each entry must be a decoded dict (otherwise the `**` expansion is a
`TypeError`) whose keys avoid the positional parameter name `session`
(a clash is a `TypeError` too); every handle copies its entry's bindings
as `_data` and shares the session reference. -/
def jobsOf (session : Nat) : List JVal → PyResult (List Job)
  | [] => .ret []
  | .obj fields :: rest =>
    if fields.any (fun kv => kv.1 = "session") then .raised "TypeError"
    else
      (match jobsOf session rest with
       | .ret js => .ret ({ _session := session, _data := fields, setAttrs := [] } :: js)
       | .retErr e => .retErr e
       | .raised e => .raised e)
  | _ :: _ => .raised "TypeError"

/-- Models `NEWT.queue_stat`: validate the machine; GET `/queue/<machine>`
with `index`/`limit` plus the caller's extra filters as query parameters;
`raise_for_status`; build one `Job` per entry of the decoded sequence, in
order. -/
def NEWT.queue_stat (c : NEWT) (http : Request → HTTPResponse)
    (machine : String) (index limit : Int) (kwargs : List (String × String)) :
    PyResult (List Job) × List Request :=
  if machine ∈ NEWT_MACHINES then
    let params := dictUpdate [("index", toString index), ("limit", toString limit)] kwargs
    let req : Request :=
      { method := .get, url := NEWT_BASE_URL ++ "/queue/" ++ machine,
        data := [], params := params, files := [], stream := false }
    let resp := http req
    let r : PyResult (List Job) :=
      if httpError resp then .raised "HTTPError"
      else
        match respJson resp with
        | .ret (.arr entries) => jobsOf c._session entries
        | .ret _ => .raised "TypeError"
        | .retErr e => .retErr e
        | .raised e => .raised e
    (r, [req])
  else (.retErr "machine value must be specified", [])

/-- Argument accepted for `jobscript`: a plain string or a (Python 2) file
object. -/
inductive ScriptArg where
  | str : String → ScriptArg
  | fileObj : FileObj → ScriptArg
deriving DecidableEq, Repr

/-- Models `job = jobscript.read() if isinstance(jobscript, file) else
jobscript`. -/
def ScriptArg.contentOf : ScriptArg → String
  | .str s => s
  | .fileObj f => f.content

/-- Models `NEWT.queue_submit`: validate the machine; read the script
content; when `jobfile` is truthy POST form data with an empty `jobscript`
and the given `jobfile`, otherwise POST the inline script with an empty
`jobfile`; `raise_for_status`; return the decoded JSON body. -/
def NEWT.queue_submit (c : NEWT) (http : Request → HTTPResponse)
    (machine : String) (jobscript : ScriptArg) (jobfile : Option String) :
    PyResult JVal × List Request :=
  if machine ∈ NEWT_MACHINES then
    let job := jobscript.contentOf
    let data :=
      match jobfile with
      | some jf =>
        if jf = "" then [("jobscript", job), ("jobfile", "")]
        else [("jobscript", ""), ("jobfile", jf)]
      | none => [("jobscript", job), ("jobfile", "")]
    let req : Request :=
      { method := .post, url := NEWT_BASE_URL ++ "/queue/" ++ machine,
        data := data, params := [], files := [], stream := false }
    let resp := http req
    let r : PyResult JVal :=
      if httpError resp then .raised "HTTPError" else respJson resp
    (r, [req])
  else (.retErr "machine value must be specified", [])

/-- Models `Job.update` (the spec's refresh): read `self.jobid` and
`self.hostname` through attribute lookup, take `self.jobid.split('.')[0]`
(an `AttributeError` when the job id is not a string), GET
`NEWT_BASE_URL + '/queue/' + machine + '/' + jobid`, `raise_for_status`,
then `setattr` every key of the decoded dict onto the handle and return
the raw decoded payload, paired here with the updated handle. -/
def Job.update (j : Job) (http : Request → HTTPResponse) :
    PyResult (JVal × Job) × List Request :=
  match j.readAttr "jobid" with
  | .ret (.str jidRaw) =>
    (match j.readAttr "hostname" with
     | .ret (.str host) =>
       let jobid := pySplitHead '.' jidRaw
       let req : Request :=
         { method := .get,
           url := NEWT_BASE_URL ++ "/queue/" ++ host ++ "/" ++ jobid,
           data := [], params := [], files := [], stream := false }
       let resp := http req
       let r : PyResult (JVal × Job) :=
         if httpError resp then .raised "HTTPError"
         else
           match respJson resp with
           | .ret (.obj fields) => .ret (.obj fields, j.setattrAll fields)
           | .ret _ => .raised "TypeError"
           | .retErr e => .retErr e
           | .raised e => .raised e
       (r, [req])
     | .ret _ => (.raised "TypeError", [])
     | .retErr e => (.retErr e, [])
     | .raised e => (.raised e, []))
  | .ret _ => (.raised "AttributeError", [])
  | .retErr e => (.retErr e, [])
  | .raised e => (.raised e, [])

/-
  Shared lemmas about association-list lookup under dict insertion/update.
-/

theorem alookup_dictInsert_self {β : Type} (d : List (String × β)) (k : String) (v : β) :
    alookup k (dictInsert d k v) = some v := by
  induction d with
  | nil => simp [dictInsert, alookup]
  | cons kv rest ih =>
    obtain ⟨k', v'⟩ := kv
    by_cases h : k' = k
    · subst h
      simp [dictInsert, alookup]
    · simp [dictInsert, alookup, h, ih]

theorem alookup_dictInsert_ne {β : Type} (d : List (String × β)) (k k' : String) (v : β)
    (h : ¬ k' = k) : alookup k (dictInsert d k' v) = alookup k d := by
  induction d with
  | nil => simp [dictInsert, alookup, h]
  | cons kv rest ih =>
    obtain ⟨k0, v0⟩ := kv
    by_cases h0 : k0 = k'
    · subst h0
      simp [dictInsert, alookup, h]
    · simp only [dictInsert, if_neg h0]
      simp only [alookup]
      by_cases hk : k0 = k
      · simp [hk]
      · simp [hk, ih]

theorem alookup_dictUpdate_not_mem {β : Type} (kvs d : List (String × β)) (k : String)
    (h : k ∉ kvs.map Prod.fst) :
    alookup k (dictUpdate d kvs) = alookup k d := by
  induction kvs generalizing d with
  | nil => rfl
  | cons kv rest ih =>
    obtain ⟨k0, v0⟩ := kv
    have hk0 : ¬ k0 = k := by
      intro he
      exact h (by simp [he])
    have hrest : k ∉ rest.map Prod.fst := by
      intro hr
      exact h (by simp [hr])
    calc alookup k (dictUpdate (dictInsert d k0 v0) rest)
        = alookup k (dictInsert d k0 v0) := ih (dictInsert d k0 v0) hrest
      _ = alookup k d := alookup_dictInsert_ne d k k0 v0 hk0

theorem alookup_dictUpdate_mem {β : Type} (kvs d : List (String × β)) (k : String) (v : β)
    (hnd : (kvs.map Prod.fst).Nodup) (hmem : (k, v) ∈ kvs) :
    alookup k (dictUpdate d kvs) = some v := by
  induction kvs generalizing d with
  | nil => cases hmem
  | cons kv rest ih =>
    obtain ⟨k0, v0⟩ := kv
    simp only [List.map_cons, List.nodup_cons] at hnd
    rcases List.mem_cons.mp hmem with heq | hmv
    · cases heq
      calc alookup k (dictUpdate (dictInsert d k v) rest)
          = alookup k (dictInsert d k v) :=
            alookup_dictUpdate_not_mem rest (dictInsert d k v) k hnd.1
        _ = some v := alookup_dictInsert_self d k v
    · exact ih (dictInsert d k0 v0) hnd.2 hmv

theorem jobsOf_objs (session : Nat) (fieldss : List (List (String × JVal)))
    (h : ∀ fields ∈ fieldss, fields.any (fun kv => kv.1 = "session") = false) :
    jobsOf session (fieldss.map JVal.obj) =
      .ret (fieldss.map (fun fields =>
        { _session := session, _data := fields, setAttrs := [] })) := by
  induction fieldss with
  | nil => rfl
  | cons fields rest ih =>
    have h1 := h fields (by simp)
    have h2 : ∀ f ∈ rest, f.any (fun kv => kv.1 = "session") = false := by
      intro f hf
      exact h f (by simp [hf])
    simp [jobsOf, h1, ih h2]

/-
  Claim theorems.
-/

/-- C1: for every machine string outside the supported set
['hopper', 'carver', 'edison'], each of list, download, upload,
run_command, queue_stat and queue_submit returns the constructed
ValueError (rather than raising it) and issues no HTTP request; download
also leaves the local filesystem untouched. -/
theorem c1_invalid_machine_returns_error_value
    (c : NEWT) (http : Request → HTTPResponse) (fs : FS) (machine : String)
    (hm : machine ∉ NEWT_MACHINES) :
    (∀ remote_dir, NEWT.list c http machine remote_dir =
      (.retErr "machine value must be specified", [])) ∧
    (∀ remote_path local_path, NEWT.download c http fs machine remote_path local_path =
      (.retErr "machine value must be specified", [], fs)) ∧
    (∀ remote_path file_obj, NEWT.upload c http machine remote_path file_obj =
      (.retErr "machine value must be specified", [])) ∧
    (∀ command loginenv, NEWT.run_command c http machine command loginenv =
      (.retErr "machine value must be specified", [])) ∧
    (∀ index limit kwargs, NEWT.queue_stat c http machine index limit kwargs =
      (.retErr "machine value must be specified", [])) ∧
    (∀ jobscript jobfile, NEWT.queue_submit c http machine jobscript jobfile =
      (.retErr "machine value must be specified", [])) := by
  refine ⟨fun rd => ?_, fun rp lp => ?_, fun rp fo => ?_, fun cmd le => ?_,
    fun i l kw => ?_, fun js jf => ?_⟩ <;>
    simp [NEWT.list, NEWT.download, NEWT.upload, NEWT.run_command,
      NEWT.queue_stat, NEWT.queue_submit, hm]

/-- Witness for C1 at the concrete machine string "pdsf" (a NEWT system
that is not a machine). -/
theorem c1_witness :
    ("pdsf" ∉ NEWT_MACHINES) ∧
    NEWT.list ⟨0⟩ (fun _ => ⟨200, none, []⟩) "pdsf" "/home" =
      (.retErr "machine value must be specified", []) ∧
    NEWT.download ⟨0⟩ (fun _ => ⟨200, none, []⟩) [] "pdsf" "/home/a.txt" none =
      (.retErr "machine value must be specified", [], []) ∧
    NEWT.upload ⟨0⟩ (fun _ => ⟨200, none, []⟩) "pdsf" "/home/a.txt" ⟨"a.txt", "x"⟩ =
      (.retErr "machine value must be specified", []) ∧
    NEWT.run_command ⟨0⟩ (fun _ => ⟨200, none, []⟩) "pdsf" "ls" true =
      (.retErr "machine value must be specified", []) ∧
    NEWT.queue_stat ⟨0⟩ (fun _ => ⟨200, none, []⟩) "pdsf" 0 10 [] =
      (.retErr "machine value must be specified", []) ∧
    NEWT.queue_submit ⟨0⟩ (fun _ => ⟨200, none, []⟩) "pdsf" (.str "s") none =
      (.retErr "machine value must be specified", []) := by
  have h := c1_invalid_machine_returns_error_value ⟨0⟩ (fun _ => ⟨200, none, []⟩) [] "pdsf"
    (by decide)
  exact ⟨by decide, h.1 "/home", h.2.1 "/home/a.txt" none,
    h.2.2.1 "/home/a.txt" ⟨"a.txt", "x"⟩, h.2.2.2.1 "ls" true,
    h.2.2.2.2.1 0 10 [], h.2.2.2.2.2 (.str "s") none⟩

/-- C2 counterexample: on a handle whose stored mapping lacks the field
"walltime", the attribute read fails with KeyError — the mapping's
missing-key error kind — not with the attribute-not-found kind
(AttributeError) the claim asserts, because `Job.__getattr__` evaluates
`self._data[attr]` and lets the KeyError escape unconverted. -/
theorem c2_counterexample :
    Job.readAttr { _session := 0, _data := [("jobid", .str "1.s")], setAttrs := [] }
      "walltime" = .raised "KeyError" ∧
    ¬ Job.readAttr { _session := 0, _data := [("jobid", .str "1.s")], setAttrs := [] }
      "walltime" = .raised "AttributeError" := by
  constructor
  · rfl
  · simp [Job.readAttr, alookup]

/-- C2 amended: for every Job Handle and every non-reserved field name the
server did not supply (the name is absent from the stored mapping and is
not an instance attribute added by setattr), reading that field fails with
the mapping's key-not-found condition (KeyError), not with an
attribute-not-found condition. -/
theorem c2_missing_field_raises_keyerror (j : Job) (a : String)
    (hres : a ∉ Job.reservedNames)
    (h1 : alookup a j.setAttrs = none)
    (h2 : alookup a j._data = none) :
    j.readAttr a = .raised "KeyError" := by
  simp [Job.readAttr, h1, h2]

/-- Witness for the amended C2 on a concrete handle and field name. -/
theorem c2_witness :
    ("walltime" ∉ Job.reservedNames) ∧
    alookup "walltime" ([] : List (String × JVal)) = none ∧
    alookup "walltime" [("jobid", JVal.str "1.s"), ("hostname", JVal.str "edison")] = none ∧
    Job.readAttr
      { _session := 0,
        _data := [("jobid", .str "1.s"), ("hostname", .str "edison")],
        setAttrs := [] } "walltime" = .raised "KeyError" :=
  ⟨by decide, rfl, rfl,
    c2_missing_field_raises_keyerror
      { _session := 0,
        _data := [("jobid", .str "1.s"), ("hostname", .str "edison")],
        setAttrs := [] } "walltime" (by decide) rfl rfl⟩

/-- C3: on a valid machine, queue_submit with a non-empty jobfile POSTs
form data carrying an empty jobscript field and the given jobfile — the
inline script content is ignored — while with jobfile absent it POSTs the
inline script content with an empty jobfile field. -/
theorem c3_queue_submit_jobfile_precedence
    (c : NEWT) (http : Request → HTTPResponse) (machine : String)
    (hm : machine ∈ NEWT_MACHINES) (jobscript : ScriptArg) :
    (∀ jf : String, ¬ jf = "" →
      (NEWT.queue_submit c http machine jobscript (some jf)).2 =
        [{ method := .post, url := NEWT_BASE_URL ++ "/queue/" ++ machine,
           data := [("jobscript", ""), ("jobfile", jf)],
           params := [], files := [], stream := false }]) ∧
    ((NEWT.queue_submit c http machine jobscript none).2 =
      [{ method := .post, url := NEWT_BASE_URL ++ "/queue/" ++ machine,
         data := [("jobscript", jobscript.contentOf), ("jobfile", "")],
         params := [], files := [], stream := false }]) := by
  constructor
  · intro jf hjf
    simp [NEWT.queue_submit, hm, hjf]
  · simp [NEWT.queue_submit, hm]

/-- Witness for C3: a concrete submission with both a non-empty inline
script and a non-empty jobfile sends only the jobfile, and the same
submission without a jobfile sends the inline script. -/
theorem c3_witness :
    ("hopper" ∈ NEWT_MACHINES) ∧
    ¬ ("/remote/job.pbs" : String) = "" ∧
    (NEWT.queue_submit ⟨0⟩ (fun _ => ⟨200, some .null, []⟩) "hopper"
        (.str "echo hi") (some "/remote/job.pbs")).2 =
      [{ method := .post, url := "https://newt.nersc.gov/newt/queue/hopper",
         data := [("jobscript", ""), ("jobfile", "/remote/job.pbs")],
         params := [], files := [], stream := false }] ∧
    (NEWT.queue_submit ⟨0⟩ (fun _ => ⟨200, some .null, []⟩) "hopper"
        (.str "echo hi") none).2 =
      [{ method := .post, url := "https://newt.nersc.gov/newt/queue/hopper",
         data := [("jobscript", "echo hi"), ("jobfile", "")],
         params := [], files := [], stream := false }] := by
  have h := c3_queue_submit_jobfile_precedence ⟨0⟩ (fun _ => ⟨200, some .null, []⟩) "hopper"
    (by decide) (.str "echo hi")
  exact ⟨by decide, by decide,
    (h.1 "/remote/job.pbs" (by decide)).trans (by decide),
    h.2.trans (by decide)⟩

/-- C4: refresh (Job.update) on a handle whose jobid field reads as the
string jid and whose hostname field reads as the string host issues
exactly one GET against the per-job endpoint
NEWT_BASE_URL ++ "/queue/" ++ host ++ "/" ++ s, where s is the portion of
jid before the first '.' (Python `jid.split('.')[0]`). -/
theorem c4_update_per_job_endpoint (j : Job) (http : Request → HTTPResponse)
    (jid host : String)
    (hjid : j.readAttr "jobid" = .ret (.str jid))
    (hhost : j.readAttr "hostname" = .ret (.str host)) :
    (Job.update j http).2 =
      [{ method := .get,
         url := NEWT_BASE_URL ++ "/queue/" ++ host ++ "/" ++ pySplitHead '.' jid,
         data := [], params := [], files := [], stream := false }] := by
  simp [Job.update, hjid, hhost]

/-- Witness for C4: the spec's concrete scenario — jobid "12345.server"
with hostname "exampleMachine" requests machine "exampleMachine" and job
identifier "12345". -/
theorem c4_witness :
    Job.readAttr
      { _session := 0,
        _data := [("jobid", .str "12345.server"), ("hostname", .str "exampleMachine")],
        setAttrs := [] } "jobid" = .ret (.str "12345.server") ∧
    Job.readAttr
      { _session := 0,
        _data := [("jobid", .str "12345.server"), ("hostname", .str "exampleMachine")],
        setAttrs := [] } "hostname" = .ret (.str "exampleMachine") ∧
    (Job.update
      { _session := 0,
        _data := [("jobid", .str "12345.server"), ("hostname", .str "exampleMachine")],
        setAttrs := [] } (fun _ => ⟨200, some .null, []⟩)).2 =
      [{ method := .get,
         url := "https://newt.nersc.gov/newt/queue/exampleMachine/12345",
         data := [], params := [], files := [], stream := false }] :=
  ⟨rfl, rfl,
    (c4_update_per_job_endpoint
      { _session := 0,
        _data := [("jobid", .str "12345.server"), ("hostname", .str "exampleMachine")],
        setAttrs := [] } (fun _ => ⟨200, some .null, []⟩)
      "12345.server" "exampleMachine" rfl rfl).trans (by decide)⟩

/-- C5: after a successful refresh (Job.update) whose response decodes to
the dict `fields`, the call returns the raw decoded payload, every field
present in the fresh response reads as its new value, and every field
absent from the fresh response reads exactly as it did before (stale, not
cleared).  The reserved-name hypothesis records the domain on which the
setattr model is exact (server field names never collide with the handle's
internal attributes or methods). -/
theorem c5_refresh_overwrites_only_fresh_fields (j : Job) (resp : HTTPResponse)
    (fields : List (String × JVal)) (jid host : String)
    (hjid : j.readAttr "jobid" = .ret (.str jid))
    (hhost : j.readAttr "hostname" = .ret (.str host))
    (hok : httpError resp = false)
    (hjson : resp.json = some (.obj fields))
    (hnodup : (fields.map Prod.fst).Nodup)
    (hres : ∀ k ∈ fields.map Prod.fst, k ∉ Job.reservedNames) :
    (Job.update j (fun _ => resp)).1 = .ret (.obj fields, j.setattrAll fields) ∧
    (∀ k v, (k, v) ∈ fields → (j.setattrAll fields).readAttr k = .ret v) ∧
    (∀ k, k ∉ fields.map Prod.fst →
      (j.setattrAll fields).readAttr k = j.readAttr k) := by
  refine ⟨?_, ?_, ?_⟩
  · simp [Job.update, hjid, hhost, hok, respJson, hjson]
  · intro k v hkv
    have hl : alookup k (dictUpdate j.setAttrs fields) = some v :=
      alookup_dictUpdate_mem fields j.setAttrs k v hnodup hkv
    simp [Job.setattrAll, Job.readAttr, hl]
  · intro k hk
    have hl : alookup k (dictUpdate j.setAttrs fields) = alookup k j.setAttrs :=
      alookup_dictUpdate_not_mem fields j.setAttrs k hk
    simp [Job.setattrAll, Job.readAttr, hl]

/-- Witness for C5: a refresh that overwrites "jobid" and "state" leaves
the previously present field "user" readable at its stale prior value and
returns the raw payload. -/
theorem c5_witness :
    httpError ⟨200, some (.obj [("jobid", .str "12345.server"), ("state", .str "Complete")]), []⟩ = false ∧
    (([("jobid", JVal.str "12345.server"), ("state", JVal.str "Complete")].map Prod.fst).Nodup) ∧
    (∀ k ∈ [("jobid", JVal.str "12345.server"), ("state", JVal.str "Complete")].map Prod.fst,
      k ∉ Job.reservedNames) ∧
    (Job.update
      { _session := 0,
        _data := [("jobid", .str "12345.server"), ("hostname", .str "exampleMachine"),
                  ("state", .str "Running"), ("user", .str "alice")],
        setAttrs := [] }
      (fun _ => ⟨200, some (.obj [("jobid", .str "12345.server"), ("state", .str "Complete")]), []⟩)).1 =
      .ret (.obj [("jobid", .str "12345.server"), ("state", .str "Complete")],
        Job.setattrAll
          { _session := 0,
            _data := [("jobid", .str "12345.server"), ("hostname", .str "exampleMachine"),
                      ("state", .str "Running"), ("user", .str "alice")],
            setAttrs := [] }
          [("jobid", .str "12345.server"), ("state", .str "Complete")]) ∧
    (Job.setattrAll
        { _session := 0,
          _data := [("jobid", .str "12345.server"), ("hostname", .str "exampleMachine"),
                    ("state", .str "Running"), ("user", .str "alice")],
          setAttrs := [] }
        [("jobid", .str "12345.server"), ("state", .str "Complete")]).readAttr "state" =
      .ret (.str "Complete") ∧
    (Job.setattrAll
        { _session := 0,
          _data := [("jobid", .str "12345.server"), ("hostname", .str "exampleMachine"),
                    ("state", .str "Running"), ("user", .str "alice")],
          setAttrs := [] }
        [("jobid", .str "12345.server"), ("state", .str "Complete")]).readAttr "user" =
      .ret (.str "alice") := by
  have h := c5_refresh_overwrites_only_fresh_fields
    { _session := 0,
      _data := [("jobid", .str "12345.server"), ("hostname", .str "exampleMachine"),
                ("state", .str "Running"), ("user", .str "alice")],
      setAttrs := [] }
    ⟨200, some (.obj [("jobid", .str "12345.server"), ("state", .str "Complete")]), []⟩
    [("jobid", .str "12345.server"), ("state", .str "Complete")]
    "12345.server" "exampleMachine" rfl rfl rfl rfl (by decide) (by decide)
  exact ⟨rfl, by decide, by decide, h.1,
    h.2.1 "state" (.str "Complete")
      (List.mem_cons_of_mem _ (List.mem_cons_self _ _)),
    h.2.2 "user" (by decide)⟩

/-- C6: download with no explicit local path writes to the file named by
the final '/'-separated segment of remote_path; the content written is
exactly the in-order concatenation of the non-empty streamed chunks
(zero-length keep-alive chunks skipped); any existing local file at that
path is replaced (the write holds for an arbitrary prior filesystem); and
the local path written is returned. -/
theorem c6_download_default_local_path (c : NEWT) (fs : FS)
    (machine remote_path : String) (resp : HTTPResponse)
    (hm : machine ∈ NEWT_MACHINES) (hok : httpError resp = false) :
    (NEWT.download c (fun _ => resp) fs machine remote_path none).1 =
      .ret (pySplitLast '/' remote_path) ∧
    alookup (pySplitLast '/' remote_path)
        (NEWT.download c (fun _ => resp) fs machine remote_path none).2.2 =
      some (String.join (resp.chunks.filter (fun ch => ¬ ch = ""))) := by
  constructor
  · simp [NEWT.download, hm, hok]
  · simp [NEWT.download, hm, hok, fsWrite, alookup]

/-- Witness for C6: downloading /scratch/run1/data.txt with chunks
"ab", "", "cd" writes "abcd" to local file "data.txt", replacing the old
content "OLD" that was there. -/
theorem c6_witness :
    ("edison" ∈ NEWT_MACHINES) ∧
    httpError ⟨200, none, ["ab", "", "cd"]⟩ = false ∧
    (NEWT.download ⟨0⟩ (fun _ => ⟨200, none, ["ab", "", "cd"]⟩) [("data.txt", "OLD")]
        "edison" "/scratch/run1/data.txt" none).1 = .ret "data.txt" ∧
    alookup "data.txt"
        (NEWT.download ⟨0⟩ (fun _ => ⟨200, none, ["ab", "", "cd"]⟩) [("data.txt", "OLD")]
          "edison" "/scratch/run1/data.txt" none).2.2 = some "abcd" := by
  have h := c6_download_default_local_path ⟨0⟩ [("data.txt", "OLD")] "edison"
    "/scratch/run1/data.txt" ⟨200, none, ["ab", "", "cd"]⟩ (by decide) (by decide)
  exact ⟨by decide, by decide, h.1.trans (by decide), h.2.trans (by decide)⟩

/-- C7: on a valid machine, the multipart filename upload sends is the
filename component of remote_path (the tail of os.path.split) whenever it
is non-empty, and otherwise the source file object's own name; the POST
goes to the directory part of remote_path, and upload returns True on a
successful HTTP status. -/
theorem c7_upload_multipart_filename (c : NEWT) (resp : HTTPResponse)
    (machine remote_path : String) (file_obj : FileObj)
    (hm : machine ∈ NEWT_MACHINES) (hok : httpError resp = false) :
    NEWT.upload c (fun _ => resp) machine remote_path file_obj =
      (.ret true,
       [{ method := .post,
          url := NEWT_BASE_URL ++ "/file/" ++ machine ++ (osPathSplit remote_path).1,
          data := [], params := [],
          files := [("file",
            if (osPathSplit remote_path).2 = "" then file_obj.name
            else (osPathSplit remote_path).2, file_obj)],
          stream := false }]) := by
  simp [NEWT.upload, hm, hok]

/-- Witness for C7: a remote path with a filename component uploads under
that embedded name, and a directory-only remote path falls back to the
source file object's own name; both return True. -/
theorem c7_witness :
    ("hopper" ∈ NEWT_MACHINES) ∧
    httpError ⟨201, none, []⟩ = false ∧
    NEWT.upload ⟨0⟩ (fun _ => ⟨201, none, []⟩) "hopper" "/remote/dir/script.py"
        ⟨"local.py", "code"⟩ =
      (.ret true,
       [{ method := .post, url := "https://newt.nersc.gov/newt/file/hopper/remote/dir",
          data := [], params := [],
          files := [("file", "script.py", ⟨"local.py", "code"⟩)], stream := false }]) ∧
    NEWT.upload ⟨0⟩ (fun _ => ⟨201, none, []⟩) "hopper" "/remote/dir/"
        ⟨"local.py", "code"⟩ =
      (.ret true,
       [{ method := .post, url := "https://newt.nersc.gov/newt/file/hopper/remote/dir",
          data := [], params := [],
          files := [("file", "local.py", ⟨"local.py", "code"⟩)], stream := false }]) := by
  refine ⟨by decide, by decide, ?_, ?_⟩
  · exact (c7_upload_multipart_filename ⟨0⟩ ⟨201, none, []⟩ "hopper" "/remote/dir/script.py"
      ⟨"local.py", "code"⟩ (by decide) (by decide)).trans (by decide)
  · exact (c7_upload_multipart_filename ⟨0⟩ ⟨201, none, []⟩ "hopper" "/remote/dir/"
      ⟨"local.py", "code"⟩ (by decide) (by decide)).trans (by decide)

/-- C8 counterexample: a 300-status response (non-2xx but not 4xx/5xx)
whose body authenticates makes login return the auth flag — no transport
error is raised, contradicting the claim that every non-2xx status raises
before the body is inspected (`raise_for_status` only raises for
4xx/5xx). -/
theorem c8_counterexample :
    (NEWT.login { _session := 0 }
      (fun _ => { status := 300,
                  json := some (.obj [("auth", .bool true), ("username", .str "alice")]),
                  chunks := [] }) "alice" "pw").1 = .ret (.bool true) ∧
    ¬ (NEWT.login { _session := 0 }
      (fun _ => { status := 300,
                  json := some (.obj [("auth", .bool true), ("username", .str "alice")]),
                  chunks := [] }) "alice" "pw").1 = .raised "HTTPError" := by
  constructor
  · rfl
  · intro h
    have h2 : PyResult.ret (JVal.bool true) = (PyResult.raised "HTTPError" : PyResult JVal) := h
    exact PyResult.noConfusion h2

/-- C8 amended: login (called directly by the constructor) raises the
transport error exactly on 4xx/5xx statuses — before inspecting the body —
while a non-2xx status outside that range (e.g. 3xx) does not raise; on a
non-error status it raises the authentication error whenever the auth flag
is falsy or the echoed username differs from the one given (even when the
auth flag is truthy), and returns the auth flag when the auth flag is
truthy and the echoed username matches. -/
theorem c8_login_auth_and_transport (c : NEWT) (username password : String) :
    (∀ resp : HTTPResponse, httpError resp = true →
      (NEWT.login c (fun _ => resp) username password).1 = .raised "HTTPError") ∧
    (∀ resp fields authv, httpError resp = false →
      resp.json = some (.obj fields) →
      alookup "auth" fields = some authv → pyTruthy authv = false →
      (NEWT.login c (fun _ => resp) username password).1 = .raised "ValueError") ∧
    (∀ resp fields authv unamev, httpError resp = false →
      resp.json = some (.obj fields) →
      alookup "auth" fields = some authv → pyTruthy authv = true →
      alookup "username" fields = some unamev → unamev.eqStr username = false →
      (NEWT.login c (fun _ => resp) username password).1 = .raised "ValueError") ∧
    (∀ resp fields authv, httpError resp = false →
      resp.json = some (.obj fields) →
      alookup "auth" fields = some authv → pyTruthy authv = true →
      alookup "username" fields = some (.str username) →
      (NEWT.login c (fun _ => resp) username password).1 = .ret authv) := by
  refine ⟨?_, ?_, ?_, ?_⟩
  · intro resp h
    simp [NEWT.login, h]
  · intro resp fields authv hok hjson hauth htr
    simp [NEWT.login, hok, respJson, hjson, PyResult.bind, objGet, hauth, htr]
  · intro resp fields authv unamev hok hjson hauth htr huname hne
    simp [NEWT.login, hok, respJson, hjson, PyResult.bind, objGet, hauth, htr, huname, hne]
  · intro resp fields authv hok hjson hauth htr huname
    simp [NEWT.login, hok, respJson, hjson, PyResult.bind, objGet, hauth, htr, huname,
      JVal.eqStr]

/-- Witness for the amended C8: a 404 raises the transport error; a false
auth flag raises the authentication error; a username mismatch raises it
even with auth true; matching credentials return the auth flag. -/
theorem c8_witness :
    httpError ⟨404, some (.obj [("auth", .bool true), ("username", .str "alice")]), []⟩ = true ∧
    (NEWT.login ⟨0⟩
      (fun _ => ⟨404, some (.obj [("auth", .bool true), ("username", .str "alice")]), []⟩)
      "alice" "pw").1 = .raised "HTTPError" ∧
    (NEWT.login ⟨0⟩
      (fun _ => ⟨200, some (.obj [("auth", .bool false), ("username", .str "alice")]), []⟩)
      "alice" "pw").1 = .raised "ValueError" ∧
    (NEWT.login ⟨0⟩
      (fun _ => ⟨200, some (.obj [("auth", .bool true), ("username", .str "bob")]), []⟩)
      "alice" "pw").1 = .raised "ValueError" ∧
    (NEWT.login ⟨0⟩
      (fun _ => ⟨200, some (.obj [("auth", .bool true), ("username", .str "alice")]), []⟩)
      "alice" "pw").1 = .ret (.bool true) := by
  have h := c8_login_auth_and_transport ⟨0⟩ "alice" "pw"
  refine ⟨by decide, ?_, ?_, ?_, ?_⟩
  · exact h.1 ⟨404, some (.obj [("auth", .bool true), ("username", .str "alice")]), []⟩
      (by decide)
  · exact h.2.1 ⟨200, some (.obj [("auth", .bool false), ("username", .str "alice")]), []⟩
      [("auth", .bool false), ("username", .str "alice")] (.bool false)
      (by decide) rfl rfl rfl
  · exact h.2.2.1 ⟨200, some (.obj [("auth", .bool true), ("username", .str "bob")]), []⟩
      [("auth", .bool true), ("username", .str "bob")] (.bool true) (.str "bob")
      (by decide) rfl rfl rfl rfl (by decide)
  · exact h.2.2.2 ⟨200, some (.obj [("auth", .bool true), ("username", .str "alice")]), []⟩
      [("auth", .bool true), ("username", .str "alice")] (.bool true)
      (by decide) rfl rfl rfl rfl

/-- C9: on a valid machine, when the response decodes to a sequence of
dicts, queue_stat returns one Job Handle per entry, in the same order,
each handle's stored mapping exactly the corresponding entry's fields and
each handle holding the client's session reference. -/
theorem c9_queue_stat_handles (c : NEWT) (machine : String) (index limit : Int)
    (kwargs : List (String × String)) (resp : HTTPResponse)
    (fieldss : List (List (String × JVal)))
    (hm : machine ∈ NEWT_MACHINES)
    (hok : httpError resp = false)
    (hjson : resp.json = some (.arr (fieldss.map JVal.obj)))
    (hses : ∀ fields ∈ fieldss, fields.any (fun kv => kv.1 = "session") = false) :
    (NEWT.queue_stat c (fun _ => resp) machine index limit kwargs).1 =
      .ret (fieldss.map (fun fields =>
        { _session := c._session, _data := fields, setAttrs := [] })) := by
  simp [NEWT.queue_stat, hm, hok, respJson, hjson, jobsOf_objs c._session fieldss hses]

/-- Witness for C9 on a two-job queue listing. -/
theorem c9_witness :
    ("carver" ∈ NEWT_MACHINES) ∧
    httpError ⟨200, some (.arr [.obj [("jobid", .str "1.a"), ("hostname", .str "carver")],
      .obj [("jobid", .str "2.b"), ("hostname", .str "carver")]]), []⟩ = false ∧
    (∀ fields ∈ [[("jobid", JVal.str "1.a"), ("hostname", JVal.str "carver")],
        [("jobid", JVal.str "2.b"), ("hostname", JVal.str "carver")]],
      fields.any (fun kv => kv.1 = "session") = false) ∧
    (NEWT.queue_stat ⟨7⟩
      (fun _ => ⟨200, some (.arr [.obj [("jobid", .str "1.a"), ("hostname", .str "carver")],
        .obj [("jobid", .str "2.b"), ("hostname", .str "carver")]]), []⟩)
      "carver" 0 10 []).1 =
      .ret [{ _session := 7, _data := [("jobid", .str "1.a"), ("hostname", .str "carver")],
              setAttrs := [] },
            { _session := 7, _data := [("jobid", .str "2.b"), ("hostname", .str "carver")],
              setAttrs := [] }] := by
  refine ⟨by decide, by decide, by decide, ?_⟩
  exact c9_queue_stat_handles ⟨7⟩ "carver" 0 10 []
    ⟨200, some (.arr [.obj [("jobid", .str "1.a"), ("hostname", .str "carver")],
      .obj [("jobid", .str "2.b"), ("hostname", .str "carver")]]), []⟩
    [[("jobid", JVal.str "1.a"), ("hostname", JVal.str "carver")],
     [("jobid", JVal.str "2.b"), ("hostname", JVal.str "carver")]]
    (by decide) (by decide) rfl (by decide)

/-- C10 counterexample: upload's request URL appends only the directory
part of the caller's remote path (the head of os.path.split), so for
remote path "/a/b.txt" on machine "hopper" the URL is not the claimed
literal concatenation with the full remote path. -/
theorem c10_counterexample :
    (NEWT.upload ⟨0⟩ (fun _ => ⟨200, none, []⟩) "hopper" "/a/b.txt"
        ⟨"b.txt", "x"⟩).2 =
      [{ method := .post, url := "https://newt.nersc.gov/newt/file/hopper/a",
         data := [], params := [],
         files := [("file", "b.txt", ⟨"b.txt", "x"⟩)], stream := false }] ∧
    ¬ ("https://newt.nersc.gov/newt/file/hopper/a" : String)
        = NEWT_BASE_URL ++ "/file/" ++ "hopper" ++ "/a/b.txt" := by
  constructor
  · rfl
  · decide

/-- C10 amended: for every valid machine, the list and download request
URLs are the literal concatenation of the base URL, '/file/', the machine
name and the caller's remote path, with no separator inserted between
machine and path (so a well-formed URL needs the path to begin with '/');
the upload request URL concatenates, in the same separator-free way, the
directory part of the caller's remote path (the head of os.path.split)
instead of the full remote path. -/
theorem c10_file_url_concatenation (c : NEWT) (http : Request → HTTPResponse)
    (fs : FS) (machine : String) (hm : machine ∈ NEWT_MACHINES) :
    (∀ remote_dir, (NEWT.list c http machine remote_dir).2 =
      [{ method := .get, url := NEWT_BASE_URL ++ "/file/" ++ machine ++ remote_dir,
         data := [], params := [], files := [], stream := false }]) ∧
    (∀ remote_path local_path,
      (NEWT.download c http fs machine remote_path local_path).2.1 =
      [{ method := .get, url := NEWT_BASE_URL ++ "/file/" ++ machine ++ remote_path,
         data := [], params := [("view", "read")], files := [], stream := true }]) ∧
    (∀ remote_path file_obj,
      (NEWT.upload c http machine remote_path file_obj).2 =
      [{ method := .post,
         url := NEWT_BASE_URL ++ "/file/" ++ machine ++ (osPathSplit remote_path).1,
         data := [], params := [],
         files := [("file",
           if (osPathSplit remote_path).2 = "" then file_obj.name
           else (osPathSplit remote_path).2, file_obj)],
         stream := false }]) := by
  refine ⟨fun rd => ?_, fun rp lp => ?_, fun rp fo => ?_⟩ <;>
    simp [NEWT.list, NEWT.download, NEWT.upload, hm]

/-- Witness for the amended C10 at concrete paths on machine "edison". -/
theorem c10_witness :
    ("edison" ∈ NEWT_MACHINES) ∧
    (NEWT.list ⟨0⟩ (fun _ => ⟨200, none, []⟩) "edison" "/home/alice").2 =
      [{ method := .get, url := "https://newt.nersc.gov/newt/file/edison/home/alice",
         data := [], params := [], files := [], stream := false }] ∧
    (NEWT.download ⟨0⟩ (fun _ => ⟨200, none, []⟩) [] "edison" "/home/alice/a.txt" none).2.1 =
      [{ method := .get, url := "https://newt.nersc.gov/newt/file/edison/home/alice/a.txt",
         data := [], params := [("view", "read")], files := [], stream := true }] ∧
    (NEWT.upload ⟨0⟩ (fun _ => ⟨200, none, []⟩) "edison" "/home/alice/a.txt"
        ⟨"a.txt", "x"⟩).2 =
      [{ method := .post, url := "https://newt.nersc.gov/newt/file/edison/home/alice",
         data := [], params := [],
         files := [("file", "a.txt", ⟨"a.txt", "x"⟩)], stream := false }] := by
  have h := c10_file_url_concatenation ⟨0⟩ (fun _ => ⟨200, none, []⟩) [] "edison" (by decide)
  exact ⟨by decide, (h.1 "/home/alice").trans (by decide),
    (h.2.1 "/home/alice/a.txt" none).trans (by decide),
    (h.2.2 "/home/alice/a.txt" ⟨"a.txt", "x"⟩).trans (by decide)⟩
